import Mathlib

/-!
Verification development for the EDRS (Early Delinquency Risk Score) pipeline
of `app.py`: column normalization (`_normalize_columns`), feature extraction,
scoring, bucketing and prioritization (`compute_features`, `safe_div`,
`to_bucket`).

Modelling conventions (shallow embedding):
* A dataframe is a `Table`: a list of column names plus one association list
  per row.  A pandas `NaN` cell is modelled as the absence of the column key
  in the row's association list (`getVal` returns `none`), while presence of
  a column in the table is tracked by `Table.cols`.
* Python/numpy floats are idealized as exact rationals `ℚ`; the float
  literals `1e-6`, `0.7`, `0.3` become `1/1000000`, `7/10`, `3/10`.
  Comparisons against a `NaN` value are `False` in numpy; the model returns
  `false` for a `none` operand in the same places the code can meet a `NaN`.
* `np.std` contains a square root, which has no exact rational counterpart;
  `sqrtQ` below is exact precisely when numerator and denominator of its
  argument are perfect squares (in particular on variance `0`).  It only
  occurs inside `bill_trend_up`, whose numeric branch no theorem below
  depends on.
* String handling (`str.strip`, `str.lower`, the `re.sub`/`re.fullmatch`
  patterns of `_normalize_columns`) is modelled over ASCII; the finite
  regular expressions `pay([0-6])`, `billamt([1-6])`, `payamt([1-6])` are
  transcribed as the exhaustive pattern table `canonicalMap`.
-/

/-! ## Column normalizer (`_normalize_columns`) -/

/-- Whitespace characters stripped by `str.strip()` and matched by the
regex class `\s` (ASCII model). -/
def isPySpace (ch : Char) : Bool :=
  ch == ' ' || ch == '\t' || ch == '\n' || ch == '\r' || ch == '\x0b' || ch == '\x0c'

/-- Characters removed by `re.sub(r'[\s\.\-]+', '', s)`. -/
def isSquashDrop (ch : Char) : Bool :=
  isPySpace ch || ch == '.' || ch == '-'

/-- ASCII model of `str.lower()` on a single character. -/
def lowerCh (ch : Char) : Char :=
  if 'A' ≤ ch ∧ ch ≤ 'Z' then Char.ofNat (ch.toNat + 32) else ch

/-- `str.strip()` on the character list: drop leading and trailing whitespace. -/
def stripList (l : List Char) : List Char :=
  ((l.dropWhile isPySpace).reverse.dropWhile isPySpace).reverse

/-- `str.strip()`. -/
def pyStrip (s : String) : String := String.mk (stripList s.toList)

/-- `re.sub(r'[\s\.\-]+', '', s).lower()`: remove whitespace, dots and
hyphens, then lowercase. -/
def squash (s : String) : String :=
  String.mk ((s.toList.filter (fun ch => !(isSquashDrop ch))).map lowerCh)

/-- The normalized-name patterns of `_normalize_columns`, in the order the
source checks them.  The regexes `pay([0-6])`, `billamt([1-6])` and
`payamt([1-6])` are finite alternations, transcribed exhaustively. -/
def canonicalMap : List (String × String) :=
  [("id", "ID"),
   ("limitbal", "LIMIT_BAL"), ("limitbalance", "LIMIT_BAL"),
   ("limitamount", "LIMIT_BAL"), ("limit", "LIMIT_BAL"),
   ("defaultpaymentnextmonth", "default.payment.next.month"),
   ("defaultpayment", "default.payment.next.month"),
   ("pay0", "PAY_0"), ("pay1", "PAY_1"), ("pay2", "PAY_2"), ("pay3", "PAY_3"),
   ("pay4", "PAY_4"), ("pay5", "PAY_5"), ("pay6", "PAY_6"),
   ("billamt1", "BILL_AMT1"), ("billamt2", "BILL_AMT2"), ("billamt3", "BILL_AMT3"),
   ("billamt4", "BILL_AMT4"), ("billamt5", "BILL_AMT5"), ("billamt6", "BILL_AMT6"),
   ("payamt1", "PAY_AMT1"), ("payamt2", "PAY_AMT2"), ("payamt3", "PAY_AMT3"),
   ("payamt4", "PAY_AMT4"), ("payamt5", "PAY_AMT5"), ("payamt6", "PAY_AMT6")]

/-- One column name through `_normalize_columns`: strip, squash, look the
squashed form up among the canonical patterns; unrecognized names pass
through stripped. -/
def normalizeName (c : String) : String :=
  match (canonicalMap.find? (fun p => p.1 == squash (pyStrip c))).map (fun p => p.2) with
  | some n => n
  | none => pyStrip c

/-- Model of `str.startswith("Unnamed")` that the column dropper uses. -/
def chPrefixOf : List Char → List Char → Bool
  | [], _ => true
  | _ :: _, [] => false
  | a :: as, b :: bs => a == b && chPrefixOf as bs

/-- Whether a (already renamed) column is dropped as auto-generated. -/
def isUnnamedCol (s : String) : Bool := chPrefixOf "Unnamed".toList s.toList

/-- `_normalize_columns` on the column-name list: rename every column, then
drop those whose (new) name starts with `"Unnamed"`. -/
def normalize_columns (cols : List String) : List String :=
  (cols.map normalizeName).filter (fun n => !(isUnnamedCol n))
/-! ## Data model -/

/-- A cell value: `none` models a pandas `NaN`. -/
abbrev Value := Option ℚ

/-- One dataframe row: an association list from column name to value.  A
column key absent from the list is a `NaN` cell of that row. -/
abbrev Row := List (String × Value)

/-- A dataframe: column names plus rows. -/
structure Table where
  cols : List String
  rows : List Row
deriving DecidableEq

/-- Read one cell of a row (`none` = `NaN`). -/
def getVal (r : Row) (c : String) : Value :=
  match r.find? (fun kv => kv.1 == c) with
  | some kv => kv.2
  | none => none

/-- Overwrite one cell of a row (prepending shadows earlier entries). -/
def setVal (r : Row) (c : String) (v : Value) : Row := (c, v) :: r

/-! ## Core EDRS (`compute_features` and helpers) -/

/-- `safe_div(a, b, eps=1e-6) = a / (np.abs(b) + eps)`. -/
def safe_div (a b : ℚ) : ℚ := a / (|b| + 1 / 1000000)

/-- The hard-required columns checked first by `compute_features`. -/
def must_have : List String := ["ID", "LIMIT_BAL", "default.payment.next.month"]

/-- `[f"PAY_{i}" for i in range(7)]` (both `pay_candidates` and
`recent_preference` in the source). -/
def pay_candidates : List String :=
  ["PAY_0", "PAY_1", "PAY_2", "PAY_3", "PAY_4", "PAY_5", "PAY_6"]

/-- `[f"BILL_AMT{i}" for i in range(1, 7)]`. -/
def bill_candidates : List String :=
  ["BILL_AMT1", "BILL_AMT2", "BILL_AMT3", "BILL_AMT4", "BILL_AMT5", "BILL_AMT6"]

/-- `pay_cols`: the `PAY_*` candidates present in the table. -/
def payColsOf (t : Table) : List String :=
  pay_candidates.filter (fun c => t.cols.contains c)

/-- `recent3`: the first 3 of the preference order present among `pay_cols`. -/
def recent3Of (t : Table) : List String :=
  (pay_candidates.filter (fun c => (payColsOf t).contains c)).take 3

/-- `bill_cols`: the `BILL_AMT*` candidates present in the table. -/
def billColsOf (t : Table) : List String :=
  bill_candidates.filter (fun c => t.cols.contains c)

/-- `dpd_proxy_source = "PAY_0" if "PAY_0" in df.columns else recent3[0]`
(the default `""` is unreachable: validation guarantees `recent3` has 3
entries). -/
def dpd_sourceOf (t : Table) : String :=
  if t.cols.contains "PAY_0" then "PAY_0" else (recent3Of t).headD ""

/-- `np.maximum(0, fillna(0))` on one cell. -/
def fl (v : Value) : ℚ := max 0 (v.getD 0)

/-- Mean of a list (the empty case is unreachable in use). -/
def meanQ (xs : List ℚ) : ℚ := xs.sum / (xs.length : ℚ)

/-- Population variance, as `np.std` squares it. -/
def varQ (xs : List ℚ) : ℚ := meanQ (xs.map (fun x => (x - meanQ xs) ^ 2))

/-- Rational stand-in for the float square root inside `np.std`: exact
whenever numerator and denominator are perfect squares (in particular on
`0`, the only value reached by any theorem below). -/
def sqrtQ (q : ℚ) : ℚ := (Int.sqrt q.num : ℚ) / (Nat.sqrt q.den : ℚ)

/-- `np.std` (population standard deviation), modelled via `sqrtQ`. -/
def stdQ (xs : List ℚ) : ℚ := sqrtQ (varQ xs)

/-- Per-row z-normalization `(x - mean) / (std + 1e-6)`. -/
def zScores (xs : List ℚ) : List ℚ :=
  xs.map (fun x => (x - meanQ xs) / (stdQ xs + 1 / 1000000))

/-- Dot product of two aligned lists. -/
def dotQ (xs ys : List ℚ) : ℚ := ((xs.zip ys).map (fun p => p.1 * p.2)).sum

/-- Read a list of cells of one row; `none` as soon as any cell is `NaN`. -/
def getVals? (cols : List String) (r : Row) : Option (List ℚ) :=
  match cols with
  | [] => some []
  | c :: cs =>
    match getVal r c, getVals? cs r with
    | some v, some vs => some (v :: vs)
    | _, _ => none

/-- `bill_trend_up` of one row: requires at least 3 bill columns; the bill
values are read without `fillna`, so any `NaN` poisons the arithmetic and
the final `> 0.3` comparison is then `False` (numpy `NaN` semantics),
modelled by the `none` branch of `mapM`. -/
def bill_trend_up (bill_cols : List String) (r : Row) : Bool :=
  if 3 ≤ bill_cols.length then
    match getVals? bill_cols r with
    | some vs =>
      let idx := (List.range bill_cols.length).map (fun i => ((i : ℚ) + 1))
      decide ((3 : ℚ) / 10 < dotQ (zScores vs) (zScores idx))
    | none => false
  else false

/-- Numpy comparison `x < q` where `x` may be `NaN`: `False` on `NaN`. -/
def nanLt (x : Value) (q : ℚ) : Bool :=
  match x with
  | some v => decide (v < q)
  | none => false

/-- `to_bucket` exactly as in the source (defined on any integer). -/
def to_bucket (s : ℤ) : String :=
  if 6 ≤ s then "Very High"
  else if 4 ≤ s then "High"
  else if 2 ≤ s then "Med"
  else if 1 ≤ s then "Low"
  else "Very Low"

/-- The `nba` dictionary. -/
def nba_map : List (String × String) :=
  [("Very High", "Telepon atau WA hari ini dan lakukan opsi reschedule bila diperlukan"),
   ("High", "Telepon hari ini dan follow-up dengan WA dalam 2 hari"),
   ("Med", "WA reminder dan follow-up dalam 2 hari"),
   ("Low", "WA otomatis atau reminder mingguan"),
   ("Very Low", "Tidak ada tindakan atau mass reminder")]

/-- `nba(bucket)`: dictionary lookup; total on `to_bucket`'s range (the
Python `KeyError` case is unreachable there and defaults to `""`). -/
def nba (bucket : String) : String :=
  ((nba_map.find? (fun p => p.1 == bucket)).map (fun p => p.2)).getD ""

/-- One scored row: the columns `cols_keep` of the output table `out`. -/
structure ScoredRow where
  id : Value
  limit_bal : Value
  count_telat_3m : ℕ
  count_telat_6m : ℕ
  max_tunggakan_6m : ℚ
  ratio_bayar_last : Value
  bill_trend_up : Bool
  dpd_proxy_now : ℕ
  streak_telat2plus : ℕ
  edrs_score : ℕ
  bucket : String
  next_best_action : String
  label : Value
deriving DecidableEq

/-- A default `ScoredRow`, used only as the out-of-range value of `getD`. -/
def defaultSR : ScoredRow :=
  { id := none, limit_bal := none, count_telat_3m := 0, count_telat_6m := 0,
    max_tunggakan_6m := 0, ratio_bayar_last := none, bill_trend_up := false,
    dpd_proxy_now := 0, streak_telat2plus := 0, edrs_score := 0,
    bucket := "", next_best_action := "", label := none }

/-- All per-row derived columns of `compute_features` (lines 403-453): the
delinquency counts over zero-filled, zero-floored `PAY_*` values, the
guarded payment ratio, the bill trend, the dpd proxy (read without
`fillna`), the streak flag, the score, the bucket and the action. -/
def scoreRow (t : Table) (r : Row) : ScoredRow :=
  let recent3 := recent3Of t
  let pay_cols := payColsOf t
  let count3 := (recent3.filter (fun c => decide (0 < fl (getVal r c)))).length
  let count6 := (pay_cols.filter (fun c => decide (0 < fl (getVal r c)))).length
  let maxT := (pay_cols.map (fun c => fl (getVal r c))).foldr max 0
  let ratio : Value :=
    match getVal r "PAY_AMT1", getVal r "BILL_AMT1" with
    | some a, some b => some (safe_div a b)
    | _, _ => none
  let trend := bill_trend_up (billColsOf t) r
  let dpd : ℕ :=
    match getVal r (dpd_sourceOf t) with
    | some v => if 0 < v then 1 else 0
    | none => 0
  let streak : ℕ :=
    if 1 ≤ (recent3.filter (fun c => decide (2 ≤ fl (getVal r c)))).length then 1 else 0
  let score := 2 * count3
    + (if 3 ≤ count6 then 1 else 0)
    + (if 2 ≤ maxT then 1 else 0)
    + (if nanLt ratio (7 / 10) then 1 else 0)
    + (if trend then 1 else 0)
    + (if 1 ≤ dpd then 1 else 0)
    + (if 1 ≤ streak then 1 else 0)
  let bucket := to_bucket (score : ℤ)
  { id := getVal r "ID", limit_bal := getVal r "LIMIT_BAL",
    count_telat_3m := count3, count_telat_6m := count6, max_tunggakan_6m := maxT,
    ratio_bayar_last := ratio, bill_trend_up := trend, dpd_proxy_now := dpd,
    streak_telat2plus := streak, edrs_score := score, bucket := bucket,
    next_best_action := nba bucket, label := getVal r "default.payment.next.month" }

/-- The pandas categorical codes of `bucket_order` (an out-of-enumeration
bucket would become `NaN`, which pandas sorts last; modelled by rank 5). -/
def bucketRank (b : String) : ℕ :=
  if b == "Very High" then 0
  else if b == "High" then 1
  else if b == "Med" then 2
  else if b == "Low" then 3
  else if b == "Very Low" then 4
  else 5

/-- Ascending comparison of `ratio_bayar_last` values; a `NaN` ratio sorts
last (`na_position='last'`). -/
def ratioLtV (a b : Value) : Bool :=
  match a, b with
  | some x, some y => decide (x < y)
  | some _, none => true
  | none, _ => false

/-- The composite sort key of the prioritizer, as a tuple. -/
def keyOf (r : ScoredRow) : ℕ × ℕ × ℕ × Value :=
  (bucketRank r.bucket, r.edrs_score, r.dpd_proxy_now, r.ratio_bayar_last)

/-- Strict lexicographic "sorts before" of the prioritizer:
`bucket_cat` ascending, `edrs_score` descending, `dpd_proxy_now`
descending, `ratio_bayar_last` ascending. -/
def keyLt (a b : ScoredRow) : Bool :=
  decide (bucketRank a.bucket < bucketRank b.bucket)
  || (decide (bucketRank a.bucket = bucketRank b.bucket)
      && (decide (b.edrs_score < a.edrs_score)
          || (decide (a.edrs_score = b.edrs_score)
              && (decide (b.dpd_proxy_now < a.dpd_proxy_now)
                  || (decide (a.dpd_proxy_now = b.dpd_proxy_now)
                      && ratioLtV a.ratio_bayar_last b.ratio_bayar_last)))))

/-- The matching total preorder, used by the stable sort. -/
def keyLe (a b : ScoredRow) : Bool := !(keyLt b a)

/-- The result triple of `compute_features` (the mutated input dataframe is
not part of the core output and is omitted). -/
structure EdrsResult where
  out : List ScoredRow
  top_prior : List ScoredRow
  top_prior_all : List ScoredRow
deriving DecidableEq

/-- Lines 455-468: select `cols_keep`, sort the whole table by the
composite key with a stable sort (pandas multi-key `sort_values` is a
stable lexsort), and filter the actionable buckets. -/
def edrsPipeline (t : Table) : EdrsResult :=
  let out := t.rows.map (scoreRow t)
  let top_prior_all := out.mergeSort keyLe
  let top_prior :=
    top_prior_all.filter (fun r => r.bucket == "Very High" || r.bucket == "High")
  ⟨out, top_prior, top_prior_all⟩

/-- `compute_features` (lines 385-470): the validation gate followed by the
pure pipeline.  A raised `ValueError` is modelled as `Except.error`. -/
def compute_features (t : Table) : Except String EdrsResult :=
  match must_have.find? (fun c => !(t.cols.contains c)) with
  | some c => .error ("Kolom wajib ada: " ++ c)
  | none =>
    if (payColsOf t).length < 3 then .error "Kolom PAY_* terlalu sedikit"
    else if !(t.cols.contains "BILL_AMT1" && t.cols.contains "PAY_AMT1") then
      .error "Perlu kolom BILL_AMT1 dan PAY_AMT1"
    else .ok (edrsPipeline t)

/-! ## Reference order for the composite sort key

The strict comparison `keyLt` is bridged to the lexicographic linear order
on `ℤ ×ₗ ℤ ×ₗ ℤ ×ₗ WithTop ℚ` (descending keys are negated; a missing
ratio maps to `⊤`, matching `na_position='last'`), so that transitivity
and totality of `keyLe` come from the linear-order instance. -/

/-- A `ratio_bayar_last` cell as an element of `WithTop ℚ` (`NaN` last). -/
def ratioTop (v : Value) : WithTop ℚ :=
  match v with
  | some x => (x : WithTop ℚ)
  | none => ⊤

/-- The linearly ordered lexicographic key type of the prioritizer. -/
abbrev SortKey := Lex (ℤ × Lex (ℤ × Lex (ℤ × WithTop ℚ)))

/-- The composite sort key as an element of `SortKey`. -/
def sortKey (r : ScoredRow) : SortKey :=
  toLex ((bucketRank r.bucket : ℤ),
    toLex (-(r.edrs_score : ℤ),
      toLex (-(r.dpd_proxy_now : ℤ), ratioTop r.ratio_bayar_last)))

/-! ## Refinement definitions written from the spec's words -/

/-- The `(minimum_score, bucket)` pairs of the Bucketizer, sorted from
highest to lowest minimum (written from the spec's words for C2). -/
def bucket_thresholds : List (ℤ × String) :=
  [(6, "Very High"), (4, "High"), (2, "Med"), (1, "Low")]

/-- Bucket assignment by scanning the sorted `(minimum_score, bucket)`
pairs from highest to lowest, first match winning, else `Very Low`
(written from the spec's words for C2, to be compared with `to_bucket`). -/
def bucketByScan (s : ℤ) : String :=
  match bucket_thresholds.find? (fun p => decide (p.1 ≤ s)) with
  | some p => p.2
  | none => "Very Low"

/-- The validation predicate as the spec states it (written from the
spec's words for C4): `ID`, `LIMIT_BAL` and the label present, at least 3
of the `PAY_0..PAY_6` columns present, and `BILL_AMT1` and `PAY_AMT1`
present. -/
def validInput (t : Table) : Prop :=
  "ID" ∈ t.cols ∧ "LIMIT_BAL" ∈ t.cols ∧ "default.payment.next.month" ∈ t.cols
  ∧ 3 ≤ (pay_candidates.filter (fun c => t.cols.contains c)).length
  ∧ "BILL_AMT1" ∈ t.cols ∧ "PAY_AMT1" ∈ t.cols

/-- The payment ratio as claim C5 describes it, with missing billing
values entered as zero (written from the spec's words, to be compared
with the code's `ratio_bayar_last`). -/
def ratioZeroFillSpec (r : Row) : ℚ :=
  safe_div ((getVal r "PAY_AMT1").getD 0) ((getVal r "BILL_AMT1").getD 0)

/-! ## Concrete fixtures -/

/-- A row with `PAY_0 = 2`: delinquent, all cells present. -/
def rowA : Row :=
  [("ID", some 1), ("LIMIT_BAL", some 50000), ("default.payment.next.month", some 0),
   ("PAY_0", some 2), ("PAY_2", some 0), ("PAY_3", some (-1)),
   ("BILL_AMT1", some 1000), ("PAY_AMT1", some 100)]

/-- A row whose `PAY_0` and `PAY_AMT1` cells are `NaN` (keys absent). -/
def rowB : Row :=
  [("ID", some 2), ("LIMIT_BAL", some 20000), ("default.payment.next.month", some 1),
   ("PAY_2", some 3), ("PAY_3", some (-1)), ("BILL_AMT1", some 100)]

/-- A small validation-passing table. -/
def Tw : Table :=
  { cols := ["ID", "LIMIT_BAL", "default.payment.next.month",
             "PAY_0", "PAY_2", "PAY_3", "BILL_AMT1", "PAY_AMT1"],
    rows := [rowA, rowB] }

/-- The pipeline result on `Tw` (the `getD` default is never reached:
`compute_features Tw` succeeds). -/
def Rw : EdrsResult := (compute_features Tw).toOption.getD ⟨[], [], []⟩

/-! ## Normalizer lemmas -/

theorem dropWhile_idem (p : α → Bool) (l : List α) :
    (l.dropWhile p).dropWhile p = l.dropWhile p := by
  induction l with
  | nil => rfl
  | cons a l ih =>
    by_cases h : p a
    · simp [List.dropWhile_cons, h, ih]
    · simp [List.dropWhile_cons, h]

theorem head_false_of_dropWhile_eq_cons {p : α → Bool} {l : List α} {b : α} {bs : List α}
    (h : l.dropWhile p = b :: bs) : p b = false := by
  induction l with
  | nil => simp [List.dropWhile] at h
  | cons a l ih =>
    rw [List.dropWhile_cons] at h
    by_cases ha : p a
    · rw [if_pos ha] at h
      exact ih h
    · rw [if_neg ha] at h
      cases h
      simpa using ha

theorem dropWhile_stripped (p : α → Bool) (l : List α) :
    (((l.dropWhile p).reverse.dropWhile p).reverse).dropWhile p
      = ((l.dropWhile p).reverse.dropWhile p).reverse := by
  rcases hB : ((l.dropWhile p).reverse.dropWhile p).reverse with _ | ⟨b, bs⟩
  · rfl
  · obtain ⟨t, ht⟩ := List.dropWhile_suffix (l := (l.dropWhile p).reverse) p
    have hA : l.dropWhile p = b :: (bs ++ t.reverse) := by
      have := congrArg List.reverse ht
      simp only [List.reverse_append, List.reverse_reverse] at this
      rw [← this, hB]
      simp
    have hb : p b = false := head_false_of_dropWhile_eq_cons hA
    simp [List.dropWhile_cons, hb]

theorem stripList_idem (l : List Char) : stripList (stripList l) = stripList l := by
  have hstr : (stripList l).dropWhile isPySpace = stripList l := dropWhile_stripped _ _
  show (((stripList l).dropWhile isPySpace).reverse.dropWhile isPySpace).reverse = stripList l
  rw [hstr]
  have hrev : (stripList l).reverse = (l.dropWhile isPySpace).reverse.dropWhile isPySpace := by
    unfold stripList
    rw [List.reverse_reverse]
  rw [hrev, dropWhile_idem]
  rfl

theorem pyStrip_idem (c : String) : pyStrip (pyStrip c) = pyStrip c := by
  unfold pyStrip
  simp [String.toList, stripList_idem]

theorem canonicalMap_fixed : ∀ p ∈ canonicalMap, normalizeName p.2 = p.2 := by decide

theorem normalizeName_idem (c : String) : normalizeName (normalizeName c) = normalizeName c := by
  rcases hg : canonicalMap.find? (fun p => p.1 == squash (pyStrip c)) with _ | p
  · have h1 : normalizeName c = pyStrip c := by simp [normalizeName, hg]
    rw [h1]
    simp [normalizeName, pyStrip_idem, hg]
  · have hmem : p ∈ canonicalMap := List.mem_of_find?_eq_some hg
    have h1 : normalizeName c = p.2 := by simp [normalizeName, hg]
    rw [h1]
    exact canonicalMap_fixed p hmem

/-! ## Pipeline lemmas -/

theorem contains_iff_mem {l : List String} {a : String} : l.contains a = true ↔ a ∈ l := by
  unfold List.contains
  exact List.elem_iff

theorem compute_features_ok {t : Table} {res : EdrsResult}
    (h : compute_features t = .ok res) : res = edrsPipeline t := by
  unfold compute_features at h
  split at h
  · simp at h
  · split at h
    · simp at h
    · split at h
      · simp at h
      · exact (Except.ok.inj h).symm

theorem scoreRow_edrs_score (t : Table) (r : Row) :
    (scoreRow t r).edrs_score =
      2 * (scoreRow t r).count_telat_3m
      + (if 3 ≤ (scoreRow t r).count_telat_6m then 1 else 0)
      + (if 2 ≤ (scoreRow t r).max_tunggakan_6m then 1 else 0)
      + (if nanLt (scoreRow t r).ratio_bayar_last (7 / 10) then 1 else 0)
      + (if (scoreRow t r).bill_trend_up then 1 else 0)
      + (if 1 ≤ (scoreRow t r).dpd_proxy_now then 1 else 0)
      + (if 1 ≤ (scoreRow t r).streak_telat2plus then 1 else 0) := rfl

theorem getVal_setVal (r : Row) (c d : String) (v : Value) :
    getVal (setVal r c v) d = if c = d then v else getVal r d := by
  unfold getVal setVal
  by_cases hcd : c = d
  · simp [List.find?_cons, hcd]
  · simp [List.find?_cons, hcd]

theorem getVals?_eq_none {l : List String} {r : Row} {b : String}
    (hb : b ∈ l) (hn : getVal r b = none) : getVals? l r = none := by
  induction l with
  | nil => cases hb
  | cons a l ih =>
    unfold getVals?
    rcases List.mem_cons.mp hb with rfl | hb'
    · rw [hn]
    · rw [ih hb']
      rcases getVal r a with _ | _ <;> rfl

/-! ## Sort-key bridging lemmas -/

theorem ratioLtV_iff (a b : Value) : ratioLtV a b = true ↔ ratioTop a < ratioTop b := by
  cases a <;> cases b <;>
    simp [ratioLtV, ratioTop, WithTop.coe_lt_top, WithTop.coe_lt_coe]

theorem ratioTop_inj {a b : Value} : ratioTop a = ratioTop b ↔ a = b := by
  cases a <;> cases b <;> simp [ratioTop]

theorem keyLt_iff (a b : ScoredRow) : keyLt a b = true ↔ sortKey a < sortKey b := by
  unfold keyLt sortKey
  simp only [Prod.Lex.lt_iff, Bool.or_eq_true, Bool.and_eq_true, decide_eq_true_eq,
    ratioLtV_iff, Nat.cast_lt, Nat.cast_inj, neg_lt_neg_iff, neg_inj]

theorem sortKey_eq_iff (a b : ScoredRow) : sortKey a = sortKey b ↔ keyOf a = keyOf b := by
  unfold sortKey keyOf
  simp only [toLex_inj, Prod.mk.injEq, Nat.cast_inj, neg_inj, ratioTop_inj]

theorem keyLe_iff (a b : ScoredRow) : keyLe a b = true ↔ sortKey a ≤ sortKey b := by
  unfold keyLe
  rw [Bool.not_eq_true', ← Bool.not_eq_true, keyLt_iff, not_lt]

theorem keyLe_trans : ∀ a b c : ScoredRow,
    keyLe a b = true → keyLe b c = true → keyLe a c = true := by
  intro a b c hab hbc
  rw [keyLe_iff] at hab hbc ⊢
  exact le_trans hab hbc

theorem keyLe_total : ∀ a b : ScoredRow, (keyLe a b || keyLe b a) = true := by
  intro a b
  simp only [Bool.or_eq_true, keyLe_iff]
  exact le_total _ _

/-! ## Claim C1 -/

/-- C1: for every row of a validation-passing input table, the produced
`edrs_score` equals exactly `2*count_telat_3m` plus the six 0/1 indicators
`[count_telat_6m >= 3] + [max_tunggakan_6m >= 2] + [ratio_bayar_last < 0.7]
+ [bill_trend_up] + [dpd_proxy_now >= 1] + [streak_telat2plus >= 1]` over
the derived features of that same row. -/
theorem claim_C1_edrs_score_formula (t : Table) (res : EdrsResult)
    (h : compute_features t = .ok res) :
    ∀ r ∈ res.out, r.edrs_score =
      2 * r.count_telat_3m
      + (if 3 ≤ r.count_telat_6m then 1 else 0)
      + (if 2 ≤ r.max_tunggakan_6m then 1 else 0)
      + (if nanLt r.ratio_bayar_last (7 / 10) then 1 else 0)
      + (if r.bill_trend_up then 1 else 0)
      + (if 1 ≤ r.dpd_proxy_now then 1 else 0)
      + (if 1 ≤ r.streak_telat2plus then 1 else 0) := by
  intro r hr
  obtain rfl := compute_features_ok h
  have hr' : r ∈ t.rows.map (scoreRow t) := hr
  obtain ⟨r0, _, rfl⟩ := List.mem_map.mp hr'
  exact scoreRow_edrs_score t r0

/-- Witness for C1 at the concrete table `Tw`. -/
theorem claim_C1_edrs_score_formula_witness :
    (Rw.out.headD defaultSR).edrs_score =
      2 * (Rw.out.headD defaultSR).count_telat_3m
      + (if 3 ≤ (Rw.out.headD defaultSR).count_telat_6m then 1 else 0)
      + (if 2 ≤ (Rw.out.headD defaultSR).max_tunggakan_6m then 1 else 0)
      + (if nanLt (Rw.out.headD defaultSR).ratio_bayar_last (7 / 10) then 1 else 0)
      + (if (Rw.out.headD defaultSR).bill_trend_up then 1 else 0)
      + (if 1 ≤ (Rw.out.headD defaultSR).dpd_proxy_now then 1 else 0)
      + (if 1 ≤ (Rw.out.headD defaultSR).streak_telat2plus then 1 else 0) :=
  claim_C1_edrs_score_formula Tw Rw rfl (Rw.out.headD defaultSR) (List.mem_cons_self _ _)

/-! ## Claim C2 -/

/-- C2: for every integer score, `to_bucket` agrees with the top-down scan
of the sorted `(minimum_score, bucket)` pairs — `score≥6 → Very High`,
else `score≥4 → High`, else `score≥2 → Med`, else `score≥1 → Low`, else
`Very Low` — first matching tier winning, lower bounds inclusive. -/
theorem claim_C2_bucket_step_scan (s : ℤ) : to_bucket s = bucketByScan s := by
  unfold to_bucket bucketByScan bucket_thresholds
  by_cases h6 : 6 ≤ s
  · simp [List.find?, h6]
  · by_cases h4 : 4 ≤ s
    · simp [List.find?, h6, h4]
    · by_cases h2 : 2 ≤ s
      · simp [List.find?, h6, h4, h2]
      · by_cases h1 : 1 ≤ s
        · simp [List.find?, h6, h4, h2, h1]
        · simp [List.find?, h6, h4, h2, h1]

/-! ## Claim C4 -/

/-- C4: the validation gate errors if and only if, on the given
(already normalized) table, `ID`, `LIMIT_BAL` or the label column is
absent, or fewer than 3 of the `PAY_0..PAY_6` columns are present, or
`BILL_AMT1` or `PAY_AMT1` is absent; the error is the whole invocation's
result, so no derived output is produced alongside it. -/
theorem claim_C4_validation_gate (t : Table) :
    (∃ msg, compute_features t = .error msg) ↔ ¬ validInput t := by
  rcases hf : must_have.find? (fun c => !(t.cols.contains c)) with _ | c
  · have hall := List.find?_eq_none.mp hf
    have hid : "ID" ∈ t.cols := by
      have := hall "ID" (by simp [must_have])
      simp only [Bool.not_eq_true'] at this
      exact contains_iff_mem.mp (by simpa using this)
    have hlim : "LIMIT_BAL" ∈ t.cols := by
      have := hall "LIMIT_BAL" (by simp [must_have])
      simp only [Bool.not_eq_true'] at this
      exact contains_iff_mem.mp (by simpa using this)
    have hlab : "default.payment.next.month" ∈ t.cols := by
      have := hall "default.payment.next.month" (by simp [must_have])
      simp only [Bool.not_eq_true'] at this
      exact contains_iff_mem.mp (by simpa using this)
    have hcf : compute_features t =
        (if (payColsOf t).length < 3 then
          (.error "Kolom PAY_* terlalu sedikit" : Except String EdrsResult)
        else if !(t.cols.contains "BILL_AMT1" && t.cols.contains "PAY_AMT1") then
          .error "Perlu kolom BILL_AMT1 dan PAY_AMT1"
        else .ok (edrsPipeline t)) := by
      unfold compute_features
      rw [hf]
    by_cases h3 : (payColsOf t).length < 3
    · rw [hcf, if_pos h3]
      constructor
      · intro _ hv
        have := hv.2.2.2.1
        unfold payColsOf at h3
        omega
      · intro _
        exact ⟨_, rfl⟩
    · by_cases hb : (t.cols.contains "BILL_AMT1" && t.cols.contains "PAY_AMT1") = true
      · rw [hcf, if_neg h3, if_neg (by rw [Bool.not_eq_true', hb]; simp)]
        have hbp : "BILL_AMT1" ∈ t.cols ∧ "PAY_AMT1" ∈ t.cols := by
          have := Bool.and_elim_left hb
          have := Bool.and_elim_right hb
          exact ⟨contains_iff_mem.mp (by assumption), contains_iff_mem.mp (by assumption)⟩
        constructor
        · rintro ⟨msg, hmsg⟩
          simp at hmsg
        · intro hv
          exfalso
          apply hv
          refine ⟨hid, hlim, hlab, ?_, ⟨hbp.1, hbp.2⟩⟩
          unfold payColsOf at h3
          omega
      · have hX : (t.cols.contains "BILL_AMT1" && t.cols.contains "PAY_AMT1") = false := by
          cases hA : (t.cols.contains "BILL_AMT1" && t.cols.contains "PAY_AMT1")
          · rfl
          · exact absurd hA hb
        rw [hcf, if_neg h3, if_pos (by rw [Bool.not_eq_true']; exact hX)]
        constructor
        · intro _ hv
          apply hb
          rw [Bool.and_eq_true]
          exact ⟨contains_iff_mem.mpr hv.2.2.2.2.1, contains_iff_mem.mpr hv.2.2.2.2.2⟩
        · intro _
          exact ⟨_, rfl⟩
  · have hc1 : c ∈ must_have := List.mem_of_find?_eq_some hf
    have hc2 := List.find?_some hf
    simp only [Bool.not_eq_true'] at hc2
    have hcm : c ∉ t.cols := by
      intro hmem
      rw [contains_iff_mem.mpr hmem] at hc2
      cases hc2
    have hcf : compute_features t = .error ("Kolom wajib ada: " ++ c) := by
      unfold compute_features
      rw [hf]
    constructor
    · intro _ hv
      simp only [must_have, List.mem_cons, List.not_mem_nil, or_false] at hc1
      rcases hc1 with rfl | rfl | rfl
      · exact hcm hv.1
      · exact hcm hv.2.1
      · exact hcm hv.2.2.1
    · intro _
      exact ⟨_, hcf⟩

/-! ## Claim C7 -/

/-- C7: for every row, `ratio_bayar_last` is `PAY_AMT1 / (|BILL_AMT1| + ε)`
with exactly `ε = 1e-6`; the denominator is always positive, so the
division never divides by zero, and at `BILL_AMT1 = 0, PAY_AMT1 = 50` the
result is the large finite number `50 / 1e-6 = 5*10^7`. -/
theorem claim_C7_ratio_guarded (t : Table) (r : Row) (a b : ℚ)
    (ha : getVal r "PAY_AMT1" = some a) (hb : getVal r "BILL_AMT1" = some b) :
    (scoreRow t r).ratio_bayar_last = some (a / (|b| + 1 / 1000000))
    ∧ (∀ q : ℚ, 0 < |q| + 1 / 1000000)
    ∧ safe_div 50 0 = 50000000 := by
  refine ⟨?_, ?_, ?_⟩
  · have e : (scoreRow t r).ratio_bayar_last =
        (match getVal r "PAY_AMT1", getVal r "BILL_AMT1" with
         | some a, some b => some (safe_div a b)
         | _, _ => none) := rfl
    rw [e, ha, hb]
    rfl
  · intro q
    have := abs_nonneg q
    linarith
  · unfold safe_div
    norm_num

/-- Witness for C7 at the concrete row `rowA` of `Tw`. -/
theorem claim_C7_ratio_guarded_witness :
    (scoreRow Tw rowA).ratio_bayar_last = some ((100 : ℚ) / (|(1000 : ℚ)| + 1 / 1000000)) :=
  (claim_C7_ratio_guarded Tw rowA 100 1000 rfl rfl).1

/-! ## Claim C9 -/

/-- C9: for every row of every validation-passing table, `edrs_score` is a
natural number bounded by 12: `2*count_telat_3m` contributes at most 6
over the 3-column recency window and each of the six indicators at most
1. -/
theorem claim_C9_edrs_score_le_twelve (t : Table) (res : EdrsResult)
    (h : compute_features t = .ok res) :
    ∀ r ∈ res.out, r.edrs_score ≤ 12 := by
  intro r hr
  obtain rfl := compute_features_ok h
  have hr' : r ∈ t.rows.map (scoreRow t) := hr
  obtain ⟨r0, _, rfl⟩ := List.mem_map.mp hr'
  have h3 : (scoreRow t r0).count_telat_3m ≤ 3 := by
    have e : (scoreRow t r0).count_telat_3m =
        ((recent3Of t).filter (fun c => decide (0 < fl (getVal r0 c)))).length := rfl
    rw [e]
    calc ((recent3Of t).filter (fun c => decide (0 < fl (getVal r0 c)))).length
        ≤ (recent3Of t).length := List.length_filter_le _ _
      _ ≤ 3 := by
          unfold recent3Of
          rw [List.length_take]
          exact min_le_left _ _
  rw [scoreRow_edrs_score]
  split_ifs <;> omega

/-- Witness for C9 at the concrete table `Tw`. -/
theorem claim_C9_edrs_score_le_twelve_witness :
    (Rw.out.headD defaultSR).edrs_score ≤ 12 :=
  claim_C9_edrs_score_le_twelve Tw Rw rfl (Rw.out.headD defaultSR) (List.mem_cons_self _ _)

/-! ## Claim C10 -/

/-- C10: when the dpd source column (`PAY_0` if present, else the first of
the selected recent-3 columns) holds a missing value in a row, the
comparison `> 0` is applied without any zero fill and a `NaN` compares
`False`, so `dpd_proxy_now` is `0` for that row and no error is raised. -/
theorem claim_C10_dpd_missing_is_zero (t : Table) (r : Row)
    (h : getVal r (dpd_sourceOf t) = none) :
    (scoreRow t r).dpd_proxy_now = 0 := by
  have e : (scoreRow t r).dpd_proxy_now =
      (match getVal r (dpd_sourceOf t) with
       | some v => if 0 < v then 1 else 0
       | none => 0) := rfl
  rw [e, h]

/-- Witness for C10: in `rowB` of `Tw` the `PAY_0` cell is missing. -/
theorem claim_C10_dpd_missing_is_zero_witness :
    (scoreRow Tw rowB).dpd_proxy_now = 0 :=
  claim_C10_dpd_missing_is_zero Tw rowB rfl

/-! ## Claim C5 -/

/-- C5 counterexample: in `rowB` the `PAY_AMT1` cell is missing.  The code
computes `ratio_bayar_last` from the raw (not zero-filled) billing cells,
so the ratio is `NaN` (`none`), not the `safe_div(0, BILL_AMT1) = 0` that
entering the missing value as zero would give — refuting the claim's
"missing billing values enter ratio_bayar_last ... as zero". -/
theorem claim_C5_counterexample :
    (scoreRow Tw rowB).ratio_bayar_last = none
    ∧ ratioZeroFillSpec rowB = 0
    ∧ (scoreRow Tw rowB).ratio_bayar_last ≠ some (ratioZeroFillSpec rowB) := by
  refine ⟨rfl, ?_, ?_⟩
  · have h1 : getVal rowB "PAY_AMT1" = none := rfl
    have h2 : getVal rowB "BILL_AMT1" = some 100 := rfl
    unfold ratioZeroFillSpec
    rw [h1, h2]
    unfold safe_div
    norm_num
  · intro hcontra
    have h0 : (scoreRow Tw rowB).ratio_bayar_last = none := rfl
    rw [h0] at hcontra
    exact Option.noConfusion hcontra

/-- C5 (amended): missing values in the `PAY_*` columns used for
delinquency counting are treated as zero and then floored at 0, so
neither a missing nor a negative (credit) value ever changes
`count_telat_3m`, `count_telat_6m`, `max_tunggakan_6m` or
`streak_telat2plus` (replacing such a cell by an explicit `0` leaves all
four features unchanged).  The billing cells, however, are NOT
zero-filled: a missing `PAY_AMT1` or `BILL_AMT1` makes
`ratio_bayar_last` a `NaN` (`none`), and a missing bill cell makes
`bill_trend_up` false. -/
theorem claim_C5_fillna_floor_pay_columns_only (t : Table) (r : Row) (c : String)
    (hc : getVal r c = none ∨ ∃ x, getVal r c = some x ∧ x ≤ 0) :
    ((scoreRow t (setVal r c (some 0))).count_telat_3m = (scoreRow t r).count_telat_3m
     ∧ (scoreRow t (setVal r c (some 0))).count_telat_6m = (scoreRow t r).count_telat_6m
     ∧ (scoreRow t (setVal r c (some 0))).max_tunggakan_6m = (scoreRow t r).max_tunggakan_6m
     ∧ (scoreRow t (setVal r c (some 0))).streak_telat2plus = (scoreRow t r).streak_telat2plus)
    ∧ ((getVal r "PAY_AMT1" = none ∨ getVal r "BILL_AMT1" = none) →
        (scoreRow t r).ratio_bayar_last = none)
    ∧ (∀ b ∈ billColsOf t, getVal r b = none → (scoreRow t r).bill_trend_up = false) := by
  have hfl : ∀ d, fl (getVal (setVal r c (some 0)) d) = fl (getVal r d) := by
    intro d
    rw [getVal_setVal]
    by_cases hcd : c = d
    · rw [if_pos hcd]
      subst hcd
      rcases hc with h0 | ⟨x, hx, hxle⟩
      · rw [h0]
        rfl
      · rw [hx]
        unfold fl
        simp [max_eq_left hxle]
    · rw [if_neg hcd]
  refine ⟨⟨?_, ?_, ?_, ?_⟩, ?_, ?_⟩
  · have e1 : (scoreRow t (setVal r c (some 0))).count_telat_3m =
        ((recent3Of t).filter
          (fun d => decide (0 < fl (getVal (setVal r c (some 0)) d)))).length := rfl
    have e2 : (scoreRow t r).count_telat_3m =
        ((recent3Of t).filter (fun d => decide (0 < fl (getVal r d)))).length := rfl
    rw [e1, e2, List.filter_congr (fun d _ => by rw [hfl d])]
  · have e1 : (scoreRow t (setVal r c (some 0))).count_telat_6m =
        ((payColsOf t).filter
          (fun d => decide (0 < fl (getVal (setVal r c (some 0)) d)))).length := rfl
    have e2 : (scoreRow t r).count_telat_6m =
        ((payColsOf t).filter (fun d => decide (0 < fl (getVal r d)))).length := rfl
    rw [e1, e2, List.filter_congr (fun d _ => by rw [hfl d])]
  · have e1 : (scoreRow t (setVal r c (some 0))).max_tunggakan_6m =
        ((payColsOf t).map (fun d => fl (getVal (setVal r c (some 0)) d))).foldr max 0 := rfl
    have e2 : (scoreRow t r).max_tunggakan_6m =
        ((payColsOf t).map (fun d => fl (getVal r d))).foldr max 0 := rfl
    rw [e1, e2, List.map_congr_left (fun d _ => by rw [hfl d])]
  · have e1 : (scoreRow t (setVal r c (some 0))).streak_telat2plus =
        (if 1 ≤ ((recent3Of t).filter
            (fun d => decide (2 ≤ fl (getVal (setVal r c (some 0)) d)))).length
         then 1 else 0) := rfl
    have e2 : (scoreRow t r).streak_telat2plus =
        (if 1 ≤ ((recent3Of t).filter (fun d => decide (2 ≤ fl (getVal r d)))).length
         then 1 else 0) := rfl
    rw [e1, e2, List.filter_congr (fun d _ => by rw [hfl d])]
  · intro hmiss
    have e : (scoreRow t r).ratio_bayar_last =
        (match getVal r "PAY_AMT1", getVal r "BILL_AMT1" with
         | some a, some b => some (safe_div a b)
         | _, _ => none) := rfl
    rcases hmiss with h | h
    · rw [e, h]
    · rw [e, h]
      rcases getVal r "PAY_AMT1" with _ | a <;> rfl
  · intro b hb hnone
    have e : (scoreRow t r).bill_trend_up = bill_trend_up (billColsOf t) r := rfl
    rw [e]
    unfold bill_trend_up
    by_cases hlen : 3 ≤ (billColsOf t).length
    · rw [if_pos hlen, getVals?_eq_none hb hnone]
    · rw [if_neg hlen]

/-- Witness for the amended C5: `rowB`'s `PAY_0` cell is missing, and
replacing it by an explicit `0` leaves `count_telat_3m` unchanged. -/
theorem claim_C5_fillna_floor_pay_columns_only_witness :
    (scoreRow Tw (setVal rowB "PAY_0" (some 0))).count_telat_3m
      = (scoreRow Tw rowB).count_telat_3m :=
  (claim_C5_fillna_floor_pay_columns_only Tw rowB "PAY_0" (Or.inl rfl)).1.1

/-! ## Claim C6 -/

/-- C6 counterexample: the squash step removes whitespace, dots and
hyphens but NOT underscores, so `"Pay_0"` squashes to `"pay_0"`, matches
no pattern and passes through unchanged — the table does not normalize to
`PAY_0` as the claim states. -/
theorem claim_C6_counterexample :
    normalize_columns ["Pay_0", "limit.bal", "BillAmt1"]
      = ["Pay_0", "LIMIT_BAL", "BILL_AMT1"]
    ∧ "PAY_0" ∉ normalize_columns ["Pay_0", "limit.bal", "BillAmt1"] := by decide

/-- C6 (amended): a mixed-case punctuated table such as
`["Pay-0", "limit.bal", "BillAmt1"]` (punctuation limited to whitespace,
dots and hyphens — the underscore in `"Pay_0"` is not removed by the
normalizer) normalizes to exactly `[PAY_0, LIMIT_BAL, BILL_AMT1]`, and
applying the Normalizer twice to any table yields the same columns as
applying it once. -/
theorem claim_C6_normalizer_punctuation_and_idempotent :
    normalize_columns ["Pay-0", "limit.bal", "BillAmt1"]
      = ["PAY_0", "LIMIT_BAL", "BILL_AMT1"]
    ∧ ∀ cols : List String,
        normalize_columns (normalize_columns cols) = normalize_columns cols := by
  constructor
  · decide
  · intro cols
    have hfix : ∀ n ∈ normalize_columns cols, normalizeName n = n := by
      intro n hn
      have hn1 : n ∈ cols.map normalizeName := (List.mem_filter.mp hn).1
      obtain ⟨m, _, rfl⟩ := List.mem_map.mp hn1
      exact normalizeName_idem m
    have hmap : (normalize_columns cols).map normalizeName = normalize_columns cols := by
      calc (normalize_columns cols).map normalizeName
          = (normalize_columns cols).map id := List.map_congr_left hfix
        _ = normalize_columns cols := List.map_id _
    show ((normalize_columns cols).map normalizeName).filter (fun n => !(isUnnamedCol n))
        = normalize_columns cols
    rw [hmap]
    exact List.filter_eq_self.mpr (fun n hn => (List.mem_filter.mp hn).2)

/-! ## Claim C8 -/

/-- C8: `top_prior` consists of exactly the rows of `top_prior_all` whose
bucket is `Very High` or `High` — it is a sublist (same relative order,
re-indexing is a no-op here), every one of its rows is in those buckets,
every `top_prior_all` row in those buckets is kept with its multiplicity,
and no other row appears. -/
theorem claim_C8_top_prior_filter (t : Table) (res : EdrsResult)
    (h : compute_features t = .ok res) :
    res.top_prior.Sublist res.top_prior_all
    ∧ (∀ r ∈ res.top_prior, r.bucket = "Very High" ∨ r.bucket = "High")
    ∧ (∀ r : ScoredRow, (r.bucket = "Very High" ∨ r.bucket = "High") →
        List.count r res.top_prior = List.count r res.top_prior_all)
    ∧ (∀ r : ScoredRow, ¬(r.bucket = "Very High" ∨ r.bucket = "High") →
        List.count r res.top_prior = 0) := by
  obtain rfl := compute_features_ok h
  have htp : (edrsPipeline t).top_prior =
      (edrsPipeline t).top_prior_all.filter
        (fun r => r.bucket == "Very High" || r.bucket == "High") := rfl
  refine ⟨?_, ?_, ?_, ?_⟩
  · rw [htp]
    exact List.filter_sublist _
  · intro r hr
    rw [htp] at hr
    have := (List.mem_filter.mp hr).2
    simpa using this
  · intro r hcond
    rw [htp]
    apply List.count_filter
    simpa using hcond
  · intro r hcond
    rw [htp]
    rw [List.count_eq_zero]
    intro hmem
    apply hcond
    have := (List.mem_filter.mp hmem).2
    simpa using this

/-- Witness for C8 at the concrete table `Tw`. -/
theorem claim_C8_top_prior_filter_witness :
    Rw.top_prior.Sublist Rw.top_prior_all :=
  (claim_C8_top_prior_filter Tw Rw rfl).1

/-! ## Claim C3 -/

/-- C3: `top_prior_all` is a permutation of the whole scored table, it is
sorted by the composite key (bucket rank ascending with `Very High`
first, then `edrs_score` descending, then `dpd_proxy_now` descending,
then `ratio_bayar_last` ascending: each earlier row is strictly before a
later one or ties on the entire key), and the sort is stable (rows with
equal composite key keep their original relative order: filtering either
list to any fixed key value yields the same list). -/
theorem claim_C3_top_prior_all_sorted_stable (t : Table) (res : EdrsResult)
    (h : compute_features t = .ok res) :
    res.top_prior_all.Perm res.out
    ∧ List.Pairwise (fun a b => keyLt a b = true ∨ keyOf a = keyOf b) res.top_prior_all
    ∧ ∀ k : ℕ × ℕ × ℕ × Value,
        res.top_prior_all.filter (fun r => decide (keyOf r = k))
          = res.out.filter (fun r => decide (keyOf r = k)) := by
  obtain rfl := compute_features_ok h
  have hout : (edrsPipeline t).out = t.rows.map (scoreRow t) := rfl
  have htpa : (edrsPipeline t).top_prior_all
      = (t.rows.map (scoreRow t)).mergeSort keyLe := rfl
  refine ⟨?_, ?_, ?_⟩
  · rw [hout, htpa]
    exact List.mergeSort_perm _ _
  · rw [htpa]
    have hp := List.sorted_mergeSort keyLe_trans keyLe_total (t.rows.map (scoreRow t))
    refine hp.imp ?_
    intro a b hab
    rw [keyLe_iff] at hab
    rcases lt_or_eq_of_le hab with hlt | heq
    · exact Or.inl ((keyLt_iff a b).mpr hlt)
    · exact Or.inr ((sortKey_eq_iff a b).mp heq)
  · intro k
    rw [hout, htpa]
    have hpairc : List.Pairwise (fun a b => keyLe a b = true)
        ((t.rows.map (scoreRow t)).filter (fun r => decide (keyOf r = k))) := by
      apply List.pairwise_of_forall_mem_list
      intro a ha b hb
      have hka : keyOf a = k := of_decide_eq_true (List.mem_filter.mp ha).2
      have hkb : keyOf b = k := of_decide_eq_true (List.mem_filter.mp hb).2
      rw [keyLe_iff]
      exact le_of_eq ((sortKey_eq_iff a b).mpr (hka.trans hkb.symm))
    have hsub : ((t.rows.map (scoreRow t)).filter (fun r => decide (keyOf r = k))).Sublist
        ((t.rows.map (scoreRow t)).mergeSort keyLe) :=
      List.sublist_mergeSort keyLe_trans keyLe_total hpairc (List.filter_sublist _)
    have hself : ((t.rows.map (scoreRow t)).filter
          (fun r => decide (keyOf r = k))).filter (fun r => decide (keyOf r = k))
        = (t.rows.map (scoreRow t)).filter (fun r => decide (keyOf r = k)) :=
      List.filter_eq_self.mpr (fun a ha => (List.mem_filter.mp ha).2)
    have hsub2 := hsub.filter (fun r => decide (keyOf r = k))
    rw [hself] at hsub2
    have hpermf : (((t.rows.map (scoreRow t)).mergeSort keyLe).filter
          (fun r => decide (keyOf r = k))).Perm
        ((t.rows.map (scoreRow t)).filter (fun r => decide (keyOf r = k))) :=
      (List.mergeSort_perm _ _).filter _
    exact (hsub2.eq_of_length (hpermf.length_eq).symm).symm

/-- Witness for C3 at the concrete table `Tw`. -/
theorem claim_C3_top_prior_all_sorted_stable_witness :
    Rw.top_prior_all.Perm Rw.out :=
  (claim_C3_top_prior_all_sorted_stable Tw Rw rfl).1
